import Mathlib

/-!
Verification development for the portfolio-dashboard pipeline
(`build_daily_cockpit.py` and `build_portfolio_mvp.py`).

Shallow embedding notes:
* Python floats are modelled as `PFloat`: an exact rational together with the
  IEEE special values NaN, +inf and -inf.  Rounding of binary floating point
  is not modelled (no claim depends on it); NaN/infinity propagation, zero
  division, Python truthiness and comparison semantics are modelled exactly.
* pandas columns produced from row-level functions returning `float`-or-`None`
  are modelled in the float64 regime: `None` becomes NaN when the column is
  assembled (`colF`).
* String manipulation (`strip`, `upper`, `replace`, `float(str)`) is embedded
  over `List Char` with ASCII case conversion, matching Python on the inputs
  that occur (ticker symbols, currency strings).
* `json`/`yfinance`/file I/O are modelled at the value level: the quote
  download is an oracle `String → FetchResult`, and serialization keeps the
  numeric values (for `json.dumps`, NaN/Infinity survive as non-null tokens;
  `clean_for_json` is embedded explicitly).
-/

namespace Portfolio

/-!
Executable rational arithmetic.  Mathlib's `Rat` ring operations are
irreducible to the kernel, so the embedding computes through `mkRat` and the
bridge lemmas below rewrite to the ordinary operations for proofs.
-/

/-- Executable rational addition. -/
def qAdd (a b : ℚ) : ℚ := mkRat (a.num * b.den + b.num * a.den) (a.den * b.den)

/-- Executable rational negation. -/
def qNeg (a : ℚ) : ℚ := mkRat (-a.num) a.den

/-- Executable rational subtraction. -/
def qSub (a b : ℚ) : ℚ := qAdd a (qNeg b)

/-- Executable rational multiplication. -/
def qMul (a b : ℚ) : ℚ := mkRat (a.num * b.num) (a.den * b.den)

/-- Executable rational inverse (0 maps to 0, as in Mathlib). -/
def qInv (a : ℚ) : ℚ :=
  if 0 ≤ a.num then mkRat (a.den : ℤ) a.num.toNat
  else mkRat (-(a.den : ℤ)) (-a.num).toNat

/-- Executable rational division. -/
def qDiv (a b : ℚ) : ℚ := qMul a (qInv b)

/-- Kernel-friendly embedding of a natural number into `ℚ`. -/
def qOfNat (n : ℕ) : ℚ := mkRat (Int.ofNat n) 1

theorem qAdd_eq (a b : ℚ) : qAdd a b = a + b := by
  rw [qAdd, Rat.mkRat_eq_divInt]
  conv_rhs => rw [← Rat.num_divInt_den a, ← Rat.num_divInt_den b]
  rw [Rat.divInt_add_divInt _ _ (Int.natCast_ne_zero.mpr a.den_nz)
      (Int.natCast_ne_zero.mpr b.den_nz)]
  push_cast
  ring_nf

theorem qNeg_eq (a : ℚ) : qNeg a = -a := by
  rw [qNeg, Rat.mkRat_eq_divInt, ← Rat.neg_def]

theorem qSub_eq (a b : ℚ) : qSub a b = a - b := by
  rw [qSub, qAdd_eq, qNeg_eq, sub_eq_add_neg]

theorem qMul_eq (a b : ℚ) : qMul a b = a * b := by
  rw [qMul, Rat.mkRat_eq_divInt]
  conv_rhs => rw [← Rat.num_divInt_den a, ← Rat.num_divInt_den b]
  rw [Rat.divInt_mul_divInt']
  push_cast
  ring_nf

theorem qInv_eq (a : ℚ) : qInv a = a⁻¹ := by
  rw [qInv, Rat.inv_def']
  by_cases h : 0 ≤ a.num
  · rw [if_pos h, Rat.mkRat_eq_divInt, Int.toNat_of_nonneg h]
  · rw [if_neg h, Rat.mkRat_eq_divInt, Int.toNat_of_nonneg (by omega),
      Rat.divInt_neg, neg_neg]

theorem qDiv_eq (a b : ℚ) : qDiv a b = a / b := by
  rw [qDiv, qMul_eq, qInv_eq, div_eq_mul_inv]

theorem qOfNat_eq (n : ℕ) : qOfNat n = (n : ℚ) := by
  rw [qOfNat, Int.ofNat_eq_natCast, Rat.mkRat_one]
  norm_cast

/-- A Python float: exact rational, or one of the IEEE special values. -/
inductive PFloat where
  | fin (q : ℚ)
  | nan
  | inf
  | ninf
deriving DecidableEq, Repr

namespace PFloat

/-- Whether the value is NaN. -/
def isNan : PFloat → Bool
  | .nan => true
  | _ => false

/-- Python truthiness of a float: `bool(x)` is `False` only for `0.0`
(NaN and the infinities are truthy). -/
def truthy : PFloat → Bool
  | .fin q => decide (q ≠ 0)
  | _ => true

/-- IEEE negation. -/
def neg : PFloat → PFloat
  | .fin q => .fin (qNeg q)
  | .nan => .nan
  | .inf => .ninf
  | .ninf => .inf

/-- IEEE addition (NaN propagates; `inf + -inf = NaN`). -/
def add : PFloat → PFloat → PFloat
  | .nan, _ => .nan
  | _, .nan => .nan
  | .inf, .ninf => .nan
  | .ninf, .inf => .nan
  | .inf, _ => .inf
  | _, .inf => .inf
  | .ninf, _ => .ninf
  | _, .ninf => .ninf
  | .fin a, .fin b => .fin (qAdd a b)

/-- IEEE subtraction. -/
def sub (a b : PFloat) : PFloat := add a (neg b)

/-- IEEE multiplication (`inf * 0 = NaN`, signs as usual). -/
def mul : PFloat → PFloat → PFloat
  | .nan, _ => .nan
  | _, .nan => .nan
  | .fin a, .fin b => .fin (qMul a b)
  | .inf, .inf => .inf
  | .inf, .ninf => .ninf
  | .ninf, .inf => .ninf
  | .ninf, .ninf => .inf
  | .inf, .fin b => if b = 0 then .nan else if 0 < b then .inf else .ninf
  | .fin a, .inf => if a = 0 then .nan else if 0 < a then .inf else .ninf
  | .ninf, .fin b => if b = 0 then .nan else if 0 < b then .ninf else .inf
  | .fin a, .ninf => if a = 0 then .nan else if 0 < a then .ninf else .inf

/-- IEEE division.  numpy/pandas float semantics: `x / 0` is `±inf` for
nonzero `x` and NaN for `0 / 0` (a warning, never an exception). -/
def div : PFloat → PFloat → PFloat
  | .nan, _ => .nan
  | _, .nan => .nan
  | .fin a, .fin b =>
      if b = 0 then (if a = 0 then .nan else if 0 < a then .inf else .ninf)
      else .fin (qDiv a b)
  | .fin _, .inf => .fin 0
  | .fin _, .ninf => .fin 0
  | .inf, .inf => .nan
  | .inf, .ninf => .nan
  | .ninf, .inf => .nan
  | .ninf, .ninf => .nan
  | .inf, .fin b => if 0 ≤ b then .inf else .ninf
  | .ninf, .fin b => if 0 ≤ b then .ninf else .inf

/-- IEEE `<` (any comparison with NaN is false). -/
def lt : PFloat → PFloat → Bool
  | .nan, _ => false
  | _, .nan => false
  | .fin a, .fin b => decide (a < b)
  | .ninf, .ninf => false
  | .ninf, _ => true
  | _, .ninf => false
  | .inf, _ => false
  | .fin _, .inf => true

/-- IEEE `≤` (any comparison with NaN is false). -/
def le : PFloat → PFloat → Bool
  | .nan, _ => false
  | _, .nan => false
  | .fin a, .fin b => decide (a ≤ b)
  | .ninf, _ => true
  | _, .ninf => false
  | _, .inf => true
  | .inf, _ => false

end PFloat

/-- Python `a or b` for floats: `a` unless `a` is falsy (i.e. `0.0`).
Note NaN is truthy, so `nan or b = nan`. -/
def pyOrF (a b : PFloat) : PFloat := if a.truthy then a else b

/-- pandas float64 column assembly: a row-level `None` becomes NaN. -/
def colF : Option PFloat → PFloat
  | none => .nan
  | some x => x

/-- Python truthiness of an optional float (`None` is falsy, `0.0` falsy,
NaN truthy). -/
def pyTruthyOpt : Option PFloat → Bool
  | none => false
  | some x => x.truthy

/-- The whitespace characters stripped by Python `str.strip()` (ASCII part). -/
def isPySpace (c : Char) : Bool :=
  c = ' ' || c = '\t' || c = '\n' || c = '\r' || c = '\x0b' || c = '\x0c'

/-- Python `str.strip()` over the character list. -/
def stripL (l : List Char) : List Char :=
  ((l.dropWhile isPySpace).reverse.dropWhile isPySpace).reverse

/-- ASCII lower-casing of one character (Python `str.lower()` on ASCII). -/
def asciiLower (c : Char) : Char :=
  if 'A' ≤ c && c ≤ 'Z' then Char.ofNat (c.toNat + 32) else c

/-- ASCII upper-casing of one character (Python `str.upper()` on ASCII). -/
def asciiUpper (c : Char) : Char :=
  if 'a' ≤ c && c ≤ 'z' then Char.ofNat (c.toNat - 32) else c

/-- `symbol.strip().upper()`: the symbol normalization used everywhere. -/
def cleanSym (s : String) : String := ⟨(stripL s.toList).map asciiUpper⟩

/-- Split a character list at every occurrence of `c` (like `str.split(c)`). -/
def splitOnChar (c : Char) : List Char → List (List Char)
  | [] => [[]]
  | x :: xs =>
      let r := splitOnChar c xs
      if x = c then [] :: r
      else
        match r with
        | h :: t => (x :: h) :: t
        | [] => [[x]]

/-- Digits of a chunk to a natural number; `none` if empty or non-digit. -/
def natOfDigits (l : List Char) : Option ℕ :=
  if l = [] then none
  else if l.all Char.isDigit then
    some (l.foldl (fun n c => 10 * n + (c.toNat - 48)) 0)
  else none

/-- Digits to a natural, allowing the empty chunk (reads as 0). -/
def natOfDigits0 (l : List Char) : Option ℕ :=
  if l.all Char.isDigit then
    some (l.foldl (fun n c => 10 * n + (c.toNat - 48)) 0)
  else none

/-- Unsigned decimal mantissa of Python `float()`: `digits`, `digits.`,
`.digits` or `digits.digits` (at least one digit overall). -/
def parseUnsignedDec (l : List Char) : Option ℚ :=
  match splitOnChar '.' l with
  | [a] => (natOfDigits a).map qOfNat
  | [a, b] =>
      if a = [] && b = [] then none
      else
        match natOfDigits0 a, natOfDigits0 b with
        | some ia, some fb =>
            some (qAdd (qOfNat ia) (qDiv (qOfNat fb) (qOfNat (10 ^ b.length))))
        | _, _ => none
  | _ => none

/-- Strip one optional leading sign; returns (isNegative, rest). -/
def splitSign : List Char → Bool × List Char
  | '-' :: rest => (true, rest)
  | '+' :: rest => (false, rest)
  | l => (false, l)

/-- Mantissa with optional exponent part (characters already lower-cased). -/
def parseFloatCore (l : List Char) : Option ℚ :=
  match splitOnChar 'e' l with
  | [m] => parseUnsignedDec m
  | [m, ex] =>
      match parseUnsignedDec m with
      | none => none
      | some mq =>
          let (eneg, edig) := splitSign ex
          match natOfDigits edig with
          | none => none
          | some en =>
              some (if eneg then qDiv mq (qOfNat (10 ^ en))
                    else qMul mq (qOfNat (10 ^ en)))
  | _ => none

/-- Python `float(str)`: optional sign, then a decimal numeral with optional
exponent, or one of the case-insensitive special tokens `nan`, `inf`,
`infinity`.  (Faithful subset of the CPython grammar: digit-group
underscores are not modelled; no claim input uses them.)  Returns `none`
where CPython raises `ValueError`. -/
def pyFloatOfChars (l : List Char) : Option PFloat :=
  let t := (stripL l).map asciiLower
  let (neg, body) := splitSign t
  if body = "nan".toList then some .nan
  else if body = "inf".toList || body = "infinity".toList then
    some (if neg then .ninf else .inf)
  else
    match parseFloatCore body with
    | some q => some (.fin (if neg then qNeg q else q))
    | none => none

/-- A raw spreadsheet cell as seen by the row-level Python helpers: a string,
a numeric value (pandas float, NaN for a blank numeric cell), or `None`. -/
inductive Cell where
  | str (s : String)
  | num (x : PFloat)
  | blank
deriving DecidableEq, Repr

/-- `parse_money` (identical in both scripts, lines 17-31 / 16-31): strips
`$` and `,` from strings, empty string and `None` give `None`, otherwise
`float(...)` with `ValueError`/`TypeError` caught to `None`. -/
def parse_money (value : Cell) : Option PFloat :=
  match value with
  | .str s =>
      let clean := stripL (s.toList.filter (fun c => !(c = '$' || c = ',')))
      if clean = [] then none
      else pyFloatOfChars clean
  | .blank => none
  | .num x => some x

/-- `pd.to_numeric(col, errors="coerce")` at the cell level: numeric cells
pass through, `None`/unparseable strings coerce to NaN. -/
def toNumeric (c : Cell) : PFloat :=
  match c with
  | .num x => x
  | .blank => .nan
  | .str s => (pyFloatOfChars s.toList).getD .nan

/-!  QuoteFetcher (cockpit variant, `build_daily_cockpit.py` lines 46-80). -/

/-- Result of `yf.download` for one symbol: an exception of any kind, or a
window of daily sessions given by their closing prices (NaN = missing). -/
inductive FetchResult where
  | err
  | ok (closes : List PFloat)
deriving DecidableEq, Repr

/-- `data.dropna(subset=["Close"])`: discard sessions with missing close. -/
def usableCloses (closes : List PFloat) : List PFloat :=
  closes.filter (fun c => !c.isNan)

/-- The quote record built by `fetch_quote` (cockpit). -/
structure Quote where
  price : PFloat
  prev_close : Option PFloat
  day_change : Option PFloat
  day_pct : Option PFloat
  week_pct : Option PFloat
deriving DecidableEq, Repr

/-- `prev = data.iloc[-2] if len(data) > 1 else None`, as its close. -/
def prevClose (data : List PFloat) : Option PFloat :=
  if 1 < data.length then data[data.length - 2]? else none

/-- `day_change`/`day_pct` (lines 56-57): computed only behind the truthiness
guard `if prev_close` (`None` and `0.0` both falsy). -/
def dayFields (price : PFloat) (prev_close : Option PFloat) :
    Option PFloat × Option PFloat :=
  match prev_close with
  | some pc =>
      if pc.truthy then
        (some (PFloat.sub price pc),
         some (PFloat.mul (PFloat.div (PFloat.sub price pc) pc) (.fin 100)))
      else (none, none)
  | none => (none, none)

/-- `week_ago = data.iloc[0]["Close"] if len(data) >= 5 else None` and
`week_pct = ((price - week_ago) / week_ago * 100) if week_ago else None`
(lines 58-59). -/
def weekPctOf (data : List PFloat) (price : PFloat) : Option PFloat :=
  match (if 5 ≤ data.length then data.head? else none : Option PFloat) with
  | some wa =>
      if wa.truthy then
        some (PFloat.mul (PFloat.div (PFloat.sub price wa) wa) (.fin 100))
      else none
  | none => none

/-- The quote assembled from a nonempty usable window whose last close is
`price`. -/
def quoteFrom (data : List PFloat) (price : PFloat) : Quote :=
  let prev_close := prevClose data
  let day := dayFields price prev_close
  ⟨price, prev_close, day.1, day.2, weekPctOf data price⟩

/-- `fetch_quote` (cockpit, lines 46-68): 5-session window; any exception is
caught to `None`; sessions with missing close dropped; empty usable window
gives `None`. -/
def fetch_quote (res : FetchResult) : Option Quote :=
  match res with
  | .err => none
  | .ok closes =>
      let data := usableCloses closes
      match data.getLast? with
      | none => none
      | some price => some (quoteFrom data price)

/-- First-match association-list lookup (Python `dict.get`). -/
def lookupKV {β : Type} (k : String) : List (String × β) → Option β
  | [] => none
  | (k2, v) :: rest => if k = k2 then some v else lookupKV k rest

/-- Loop body of `fetch_quotes` (lines 71-80): normalize the symbol, skip
empties and already-fetched keys, insert only successful fetches. -/
def fetch_quotes_aux (oracle : String → FetchResult) :
    List String → List (String × Quote) → List (String × Quote)
  | [], acc => acc
  | sym :: rest, acc =>
      let clean := cleanSym sym
      if clean = "" || (lookupKV clean acc).isSome then
        fetch_quotes_aux oracle rest acc
      else
        match fetch_quote (oracle clean) with
        | some q => fetch_quotes_aux oracle rest (acc ++ [(clean, q)])
        | none => fetch_quotes_aux oracle rest acc

/-- `fetch_quotes` (cockpit). -/
def fetch_quotes (oracle : String → FetchResult) (symbols : List String) :
    List (String × Quote) :=
  fetch_quotes_aux oracle symbols []

/-- `pd.unique` over the symbol column: first occurrences, in order. -/
def pyUniqueAux : List String → List String → List String
  | [], _ => []
  | x :: xs, seen =>
      if seen.contains x then pyUniqueAux xs seen
      else x :: pyUniqueAux xs (x :: seen)

/-- First-occurrence de-duplication (`Series.unique()`). -/
def pyUnique (l : List String) : List String := pyUniqueAux l []

/-!  Stable sorting.  `sortB` is the unique stable sort for a total preorder;
it models both `DataFrame.sort_values` (with the NaN-last key order
`pfKeyLe`) and Python `sorted` (with `pySortLe`, faithful whenever no key is
NaN — every theorem that touches a sort either carries that hypothesis or
evaluates a concrete NaN-free instance). -/

/-- Stable insertion into a sorted list. -/
def insertB {α : Type} (le : α → α → Bool) (x : α) : List α → List α
  | [] => [x]
  | y :: ys => if le x y then x :: y :: ys else y :: insertB le x ys

/-- Stable insertion sort. -/
def sortB {α : Type} (le : α → α → Bool) : List α → List α
  | [] => []
  | x :: xs => insertB le x (sortB le xs)

/-- The total preorder used by pandas `sort_values(ascending=True)`:
`-inf < finite < +inf`, and NaN sorts after everything (`na_position="last"`). -/
def pfKeyLe (a b : PFloat) : Bool :=
  match a, b with
  | _, .nan => true
  | .nan, _ => false
  | .ninf, _ => true
  | _, .ninf => false
  | .fin p, .fin q => decide (p ≤ q)
  | .fin _, .inf => true
  | .inf, .inf => true
  | .inf, .fin _ => false

/-- The comparison realized by CPython `sorted(key=...)` on float keys:
insert `x` before `y` unless `key y < key x`.  Agrees with the unique stable
ascending sort whenever no key is NaN. -/
def pySortLe (a b : PFloat) : Bool := !(PFloat.lt b a)

/-- `DataFrame.sort_values(col, ascending=True)` (NaN last; pandas uses an
unstable quicksort, so tie order is modelled as stable — no theorem below
depends on the order of duplicate keys). -/
def sortOn {α : Type} (key : α → PFloat) (l : List α) : List α :=
  sortB (fun x y => pfKeyLe (key x) (key y)) l

/-- Python `sorted(l, key=...)` (ascending, stable). -/
def pySortOn {α : Type} (key : α → PFloat) (l : List α) : List α :=
  sortB (fun x y => pySortLe (key x) (key y)) l

/-- Python `sorted(l, key=..., reverse=True)` (descending, stable). -/
def pySortDescOn {α : Type} (key : α → PFloat) (l : List α) : List α :=
  sortB (fun x y => pySortLe (key y) (key x)) l

/-- `Series.sum(min_count=1)`: skip NaN; NaN when no value remains. -/
def seriesSumMin1 (l : List PFloat) : PFloat :=
  let vs := l.filter (fun x => !x.isNan)
  match vs with
  | [] => .nan
  | _ => vs.foldl PFloat.add (.fin 0)

/-- `Series.fillna(0)` at one cell. -/
def fillna0 (x : PFloat) : PFloat := if x.isNan then .fin 0 else x

/-!  MetricEngine + Classifier + Aggregator (cockpit `build`, lines 138-237). -/

/-- One row of the source workbook, with the raw cells the pipeline reads.
`symbol` is the cell after `astype(str)` (a blank cell reads as `"nan"`). -/
structure RawRow where
  stockName : String
  symbol : String
  unitsCell : Cell
  buyCell : Cell
  sellCell : Cell
  currentCell : Cell
  decRefCell : Cell
  targetCell : Cell
deriving DecidableEq, Repr

/-- A row of the cockpit DataFrame after all derived-column assignments
(lines 140-174). -/
structure RowD where
  name : String
  symbolClean : String
  units : PFloat
  buy : PFloat
  sell : PFloat
  currentExcel : PFloat
  decRef : PFloat
  target : PFloat
  current : PFloat
  dayChange : PFloat
  dayPct : PFloat
  weekPct : PFloat
  pctVsBuy : PFloat
  pctVsDec : PFloat
  costBasis : PFloat
  currentValue : PFloat
  dayDollar : PFloat
deriving DecidableEq, Repr

/-- MetricEngine for one row: symbol normalization, money/numeric parsing,
`current_from_quote` / `metric_from_quote` resolution and the derived
percentage/value columns, exactly as assigned in lines 140-174. -/
def deriveRow (quotes : List (String × Quote)) (r : RawRow) : RowD :=
  let symbolClean := cleanSym r.symbol
  let units := toNumeric r.unitsCell
  let buy := colF (parse_money r.buyCell)
  let sell := colF (parse_money r.sellCell)
  let currentExcel := colF (parse_money r.currentCell)
  let decRef := toNumeric r.decRefCell
  let target := toNumeric r.targetCell
  let q := lookupKV symbolClean quotes
  let current :=
    match q with
    | some quote => quote.price
    | none => currentExcel
  let dayChange := colF (match q with | some quote => quote.day_change | none => none)
  let dayPct := colF (match q with | some quote => quote.day_pct | none => none)
  let weekPct := colF (match q with | some quote => quote.week_pct | none => none)
  let pctVsBuy := PFloat.mul (PFloat.div (PFloat.sub current buy) buy) (.fin 100)
  let pctVsDec := PFloat.mul (PFloat.div (PFloat.sub current decRef) decRef) (.fin 100)
  { name := r.stockName, symbolClean := symbolClean, units := units, buy := buy,
    sell := sell, currentExcel := currentExcel, decRef := decRef, target := target,
    current := current, dayChange := dayChange, dayPct := dayPct, weekPct := weekPct,
    pctVsBuy := pctVsBuy, pctVsDec := pctVsDec,
    costBasis := PFloat.mul units buy,
    currentValue := PFloat.mul units current,
    dayDollar := PFloat.mul units dayChange }

/-- Trigger label of rule 1. -/
def declineDay : String := "▼ Day drop >3%"

/-- Trigger label of rule 2. -/
def declineWeek : String := "▼ Week drop >10%"

/-- Trigger label of rule 3. -/
def declineBuy : String := "▼ 15% under buy"

/-- Trigger label of rule 4. -/
def declineDec : String := "▼ 20% under Dec ref"

/-- Trigger label of rule 5. -/
def targetLabel : String := "🎯 Target reached"

/-- `t.startswith("▼")` on a trigger label. -/
def startsDown (s : String) : Bool :=
  match s.toList with
  | c :: _ => c = '▼'
  | [] => false

/-- `triggers.append(label) if cond` as a list fragment. -/
def flag (b : Bool) (label : String) : List String := if b then [label] else []

/-- The ordered trigger list collected by `classify` (lines 84-101): the
four decline rules on `or 0`-defaulted metrics and the target rule behind
the truthiness guard `if target and current`. -/
def classifyTriggers (r : RowD) : List String :=
  flag (PFloat.le (pyOrF r.dayPct (.fin 0)) (.fin (mkRat (-3) 1))) declineDay ++
  flag (PFloat.le (pyOrF r.weekPct (.fin 0)) (.fin (mkRat (-10) 1))) declineWeek ++
  flag (PFloat.le (pyOrF r.pctVsBuy (.fin 0)) (.fin (mkRat (-15) 1))) declineBuy ++
  flag (PFloat.le (pyOrF r.pctVsDec (.fin 0)) (.fin (mkRat (-20) 1))) declineDec ++
  flag (r.target.truthy && r.current.truthy && PFloat.le r.target r.current)
    targetLabel

/-- `classify` (lines 83-110): triggers plus the status derivation
(lines 103-108: empty → stable, any `▼`-label → attention, else action). -/
def classify (r : RowD) : String × List String :=
  (if (classifyTriggers r).isEmpty then "stable"
   else if (classifyTriggers r).any startsDown then "attention"
   else "action",
   classifyTriggers r)

/-- The per-position record assembled in the `build` loop (lines 190-214). -/
structure Rec where
  name : String
  symbol : String
  units : PFloat
  buy : PFloat
  current : PFloat
  costBasis : PFloat
  currentValue : PFloat
  pctVsBuy : PFloat
  pctVsDec : PFloat
  dayChange : PFloat
  dayPct : PFloat
  weekPct : PFloat
  target : PFloat
  status : String
  triggers : List String
  note : String
  dayDollar : PFloat
deriving DecidableEq, Repr

/-- `notes.get(symbol, "")`. -/
def lookupNote (notes : List (String × String)) (k : String) : String :=
  (lookupKV k notes).getD ""

/-- Build one record from a classified holdings row. -/
def mkRecord (notes : List (String × String)) (r : RowD) : Rec :=
  let sc := classify r
  { name := r.name, symbol := r.symbolClean,
    units := pyOrF r.units (.fin 0),
    buy := r.buy, current := r.current, costBasis := r.costBasis,
    currentValue := r.currentValue, pctVsBuy := r.pctVsBuy,
    pctVsDec := r.pctVsDec, dayChange := r.dayChange, dayPct := r.dayPct,
    weekPct := r.weekPct, target := r.target, status := sc.1,
    triggers := sc.2, note := lookupNote notes r.symbolClean,
    dayDollar := r.dayDollar }

/-- Sort key of the attention queue: `r["dayPct"] or -999`. -/
def attKey (r : Rec) : PFloat := pyOrF r.dayPct (.fin (mkRat (-999) 1))

/-- Sort key of the winners/losers rankings: `r["dayPct"] or 0`. -/
def wlKey (r : Rec) : PFloat := pyOrF r.dayPct (.fin 0)

/-- A JSON number slot after serialization: a float value or `null`. -/
inductive JNum where
  | num (x : PFloat)
  | null
deriving DecidableEq, Repr

/-- `clean_for_json` on one numeric value (lines 131-134): NaN and the
infinities become `None`, finite floats pass through. -/
def cleanF : PFloat → JNum
  | .fin q => .num (.fin q)
  | _ => .null

/-- Is a serialized number slot safe: a finite number or `null`? -/
def jNumOk : JNum → Bool
  | .num (.fin _) => true
  | .num _ => false
  | .null => true

/-- A record after `clean_for_json` (numeric fields sanitized). -/
structure CRec where
  name : String
  symbol : String
  units : JNum
  buy : JNum
  current : JNum
  costBasis : JNum
  currentValue : JNum
  pctVsBuy : JNum
  pctVsDec : JNum
  dayChange : JNum
  dayPct : JNum
  weekPct : JNum
  target : JNum
  status : String
  triggers : List String
  note : String
  dayDollar : JNum
deriving DecidableEq, Repr

/-- `clean_for_json` applied to one record (the recursive dict walk of lines
122-135, flattened over the record's fields). -/
def cleanRec (r : Rec) : CRec :=
  { name := r.name, symbol := r.symbol, units := cleanF r.units,
    buy := cleanF r.buy, current := cleanF r.current,
    costBasis := cleanF r.costBasis, currentValue := cleanF r.currentValue,
    pctVsBuy := cleanF r.pctVsBuy, pctVsDec := cleanF r.pctVsDec,
    dayChange := cleanF r.dayChange, dayPct := cleanF r.dayPct,
    weekPct := cleanF r.weekPct, target := cleanF r.target,
    status := r.status, triggers := r.triggers, note := r.note,
    dayDollar := cleanF r.dayDollar }

/-- Every numeric slot of a cleaned record is finite-or-null. -/
def cRecOk (c : CRec) : Bool :=
  jNumOk c.units && jNumOk c.buy && jNumOk c.current && jNumOk c.costBasis &&
  jNumOk c.currentValue && jNumOk c.pctVsBuy && jNumOk c.pctVsDec &&
  jNumOk c.dayChange && jNumOk c.dayPct && jNumOk c.weekPct &&
  jNumOk c.target && jNumOk c.dayDollar

/-- Everything `build` (cockpit) computes that the claims talk about. -/
structure CockpitOut where
  symbols : List String
  quotes : List (String × Quote)
  holdings : List RowD
  records : List Rec
  attention : List Rec
  attentionSorted : List Rec
  topLosers : List Rec
  topWinners : List Rec
  totalCost : PFloat
  totalValue : PFloat
  dayMove : PFloat
  pctGain : PFloat
  topSymbol : String
  recordsClean : List CRec
  attentionClean : List CRec
  winnersClean : List CRec
  losersClean : List CRec
deriving Repr

/-- `build` of `build_daily_cockpit.py` (lines 138-237), up to the four JSON
payloads handed to the HTML template (the template itself is presentation). -/
def cockpitBuild (rows : List RawRow) (oracle : String → FetchResult)
    (notes : List (String × String)) : CockpitOut :=
  let symbols := (pyUnique (rows.map (fun r => cleanSym r.symbol))).filter
    (fun s => !(s = "" || s = "NAN"))
  let quotes := fetch_quotes oracle symbols
  let derived := rows.map (deriveRow quotes)
  let holdings0 := derived.filter (fun r => PFloat.lt (.fin 0) (fillna0 r.units))
  let holdings := sortOn (fun r => r.pctVsBuy) holdings0
  let totalCost := pyOrF (seriesSumMin1 (holdings.map (fun r => r.costBasis))) (.fin 0)
  let totalValue := pyOrF (seriesSumMin1 (holdings.map (fun r => r.currentValue))) (.fin 0)
  let dayMove0 := seriesSumMin1 (holdings.map (fun r => r.dayDollar))
  let dayMove := if dayMove0.isNan then .fin 0 else dayMove0
  let pctGain :=
    if totalCost.truthy then
      PFloat.mul (PFloat.div (PFloat.sub totalValue totalCost) totalCost) (.fin 100)
    else .fin 0
  let records := holdings.map (mkRecord notes)
  let attention := records.filter (fun rec => !rec.triggers.isEmpty)
  let attentionSorted := pySortOn attKey attention
  let topLosers := (pySortOn wlKey records).take 5
  let topWinners := (pySortDescOn wlKey records).take 5
  let topSymbol :=
    match records.getLast? with
    | some rec => rec.symbol
    | none => "—"
  { symbols := symbols, quotes := quotes, holdings := holdings,
    records := records, attention := attention,
    attentionSorted := attentionSorted, topLosers := topLosers,
    topWinners := topWinners, totalCost := totalCost, totalValue := totalValue,
    dayMove := dayMove, pctGain := pctGain, topSymbol := topSymbol,
    recordsClean := records.map cleanRec,
    attentionClean := (attentionSorted.take 10).map cleanRec,
    winnersClean := topWinners.map cleanRec,
    losersClean := topLosers.map cleanRec }

/-!  The MVP pipeline (`build_portfolio_mvp.py`).  Same normalizer; the quote
window is 2 sessions and carries no week-over-week field; totals have no
`or 0` fallback; records are serialized by `json.dumps` with no
`clean_for_json` step (NaN/Infinity leave as non-null tokens). -/

/-- The quote record built by the MVP `fetch_quote` (lines 45-64). -/
structure MQuote where
  price : PFloat
  prev_close : Option PFloat
  day_change : Option PFloat
  day_pct : Option PFloat
deriving DecidableEq, Repr

/-- MVP `fetch_quote`: identical to the cockpit one minus the week window
(the 2-day request period only changes how many sessions the oracle
returns). -/
def mvp_fetch_quote (res : FetchResult) : Option MQuote :=
  match res with
  | .err => none
  | .ok closes =>
      let data := usableCloses closes
      match data.getLast? with
      | none => none
      | some price =>
          let prev_close := prevClose data
          let day := dayFields price prev_close
          some ⟨price, prev_close, day.1, day.2⟩

/-- Loop body of the MVP `fetch_quotes` (lines 67-77; the fixed
`time.sleep(0.2)` between requests has no value-level effect). -/
def mvp_fetch_quotes_aux (oracle : String → FetchResult) :
    List String → List (String × MQuote) → List (String × MQuote)
  | [], acc => acc
  | sym :: rest, acc =>
      let clean := cleanSym sym
      if clean = "" || (lookupKV clean acc).isSome then
        mvp_fetch_quotes_aux oracle rest acc
      else
        match mvp_fetch_quote (oracle clean) with
        | some q => mvp_fetch_quotes_aux oracle rest (acc ++ [(clean, q)])
        | none => mvp_fetch_quotes_aux oracle rest acc

/-- MVP `fetch_quotes`. -/
def mvp_fetch_quotes (oracle : String → FetchResult) (symbols : List String) :
    List (String × MQuote) :=
  mvp_fetch_quotes_aux oracle symbols []

/-- A row of the MVP DataFrame after the derived-column assignments
(lines 83-112). -/
structure MRowD where
  name : String
  symbolClean : String
  buy : PFloat
  units : PFloat
  dec19 : PFloat
  current : PFloat
  dayChange : PFloat
  dayPct : PFloat
  pctVsBuy : PFloat
  pctVsDec : PFloat
  costBasis : PFloat
  currentValue : PFloat
deriving DecidableEq, Repr

/-- MVP MetricEngine for one row (`current_from_quote` parses the snapshot
cell with `parse_money` directly when the symbol is unresolved). -/
def mvpDerive (quotes : List (String × MQuote)) (r : RawRow) : MRowD :=
  let symbolClean := cleanSym r.symbol
  let buy := colF (parse_money r.buyCell)
  let units := toNumeric r.unitsCell
  let dec19 := toNumeric r.decRefCell
  let q := lookupKV symbolClean quotes
  let current := colF
    (match q with
     | some quote => some quote.price
     | none => parse_money r.currentCell)
  let dayChange := colF (match q with | some quote => quote.day_change | none => none)
  let dayPct := colF (match q with | some quote => quote.day_pct | none => none)
  { name := r.stockName, symbolClean := symbolClean, buy := buy, units := units,
    dec19 := dec19, current := current, dayChange := dayChange, dayPct := dayPct,
    pctVsBuy := PFloat.mul (PFloat.div (PFloat.sub current buy) buy) (.fin 100),
    pctVsDec := PFloat.mul (PFloat.div (PFloat.sub current dec19) dec19) (.fin 100),
    costBasis := PFloat.mul units buy,
    currentValue := PFloat.mul units current }

/-- Round-half-even at 4 decimal places (Python `round(x, 4)`; ties of the
underlying binary double are not modelled — no claim depends on them). -/
def round4 (q : ℚ) : ℚ :=
  let y := qMul q (qOfNat 10000)
  let f := Int.fdiv y.num (y.den : ℤ)
  let r := qSub y (mkRat f 1)
  let n : ℤ :=
    if r < mkRat 1 2 then f
    else if mkRat 1 2 < r then f + 1
    else (if f % 2 = 0 then f else f + 1)
  qDiv (mkRat n 1) (qOfNat 10000)

/-- `round(float(x), 4)` on a Python float (`round(inf, 4) = inf`). -/
def pyRound4 : PFloat → PFloat
  | .fin q => .fin (round4 q)
  | x => x

/-- One entry of `interactive_records` (lines 139-155): raw column values,
with the units guard `... if not math.isnan(row["Units"]) else 0`. -/
structure MRec where
  name : String
  symbol : String
  units : PFloat
  buy : PFloat
  current : PFloat
  costBasis : PFloat
  currentValue : PFloat
  pctVsBuy : PFloat
  pctVsDec : PFloat
  dayChange : PFloat
  dayPct : PFloat
deriving DecidableEq, Repr

/-- Build one MVP interactive record from a holdings row. -/
def mvpRecord (r : MRowD) : MRec :=
  { name := r.name, symbol := r.symbolClean,
    units := if r.units.isNan then .fin 0 else pyRound4 r.units,
    buy := r.buy, current := r.current, costBasis := r.costBasis,
    currentValue := r.currentValue, pctVsBuy := r.pctVsBuy,
    pctVsDec := r.pctVsDec, dayChange := r.dayChange, dayPct := r.dayPct }

/-- The MVP serialization of one numeric field: `json.dumps` receives the
float unchanged (there is no `clean_for_json` in this script, and the
default `allow_nan=True` writes NaN/Infinity tokens instead of `null`). -/
def mvpFieldJson (x : PFloat) : JNum := JNum.num x

/-- Everything the MVP `build` (lines 80-165) computes that the claims
talk about. -/
structure MvpOut where
  quotes : List (String × MQuote)
  holdings : List MRowD
  totalCost : PFloat
  totalValue : PFloat
  totalGain : PFloat
  pctGain : PFloat
  interactive : List MRec
deriving Repr

/-- `build` of `build_portfolio_mvp.py` up to `interactive_records` and the
summary totals. -/
def mvpBuild (rows : List RawRow) (oracle : String → FetchResult) : MvpOut :=
  let symbols := (pyUnique (rows.map (fun r => cleanSym r.symbol))).filter
    (fun s => !(s = "" || s = "NAN"))
  let quotes := mvp_fetch_quotes oracle symbols
  let derived := rows.map (mvpDerive quotes)
  let holdings0 := derived.filter (fun r => PFloat.lt (.fin 0) (fillna0 r.units))
  let holdings := sortOn (fun r => r.pctVsBuy) holdings0
  let totalCost := seriesSumMin1 (holdings.map (fun r => r.costBasis))
  let totalValue := seriesSumMin1 (holdings.map (fun r => r.currentValue))
  let totalGain := PFloat.sub totalValue totalCost
  let pctGain :=
    if totalCost.truthy then
      PFloat.mul (PFloat.div totalGain totalCost) (.fin 100)
    else .fin 0
  { quotes := quotes, holdings := holdings, totalCost := totalCost,
    totalValue := totalValue, totalGain := totalGain, pctGain := pctGain,
    interactive := holdings.map mvpRecord }

/-!  Shared helper lemmas. -/

/-- The percent formula `((cur - den) / den) * 100` propagates a NaN
denominator. -/
theorem pct_formula_nan (cur : PFloat) :
    PFloat.mul (PFloat.div (PFloat.sub cur .nan) .nan) (.fin 100) = .nan := by
  cases cur <;> rfl

/-- The percent formula on a zero denominator lands in NaN or an infinity,
never a finite value. -/
theorem pct_formula_zero (cur : PFloat) :
    PFloat.mul (PFloat.div (PFloat.sub cur (.fin 0)) (.fin 0)) (.fin 100) = .nan ∨
    PFloat.mul (PFloat.div (PFloat.sub cur (.fin 0)) (.fin 0)) (.fin 100) = .inf ∨
    PFloat.mul (PFloat.div (PFloat.sub cur (.fin 0)) (.fin 0)) (.fin 100) = .ninf := by
  cases cur with
  | fin c =>
      by_cases hc : qAdd c (qNeg (0 : ℚ)) = 0
      · simp [PFloat.sub, PFloat.add, PFloat.neg, PFloat.div, PFloat.mul, hc]
      · rcases lt_or_gt_of_ne hc with h | h
        · right; right
          simp [PFloat.sub, PFloat.add, PFloat.neg, PFloat.div, PFloat.mul, hc,
            not_lt_of_gt h]
        · right; left
          simp [PFloat.sub, PFloat.add, PFloat.neg, PFloat.div, PFloat.mul, hc, h]
  | nan => left; rfl
  | inf =>
      right; left
      simp [PFloat.sub, PFloat.add, PFloat.neg, PFloat.div, PFloat.mul]
  | ninf =>
      right; right
      simp [PFloat.sub, PFloat.add, PFloat.neg, PFloat.div, PFloat.mul]

/-- The percent formula on finite operands with a nonzero denominator is the
exact rational `(c - b) / b * 100`. -/
theorem pct_formula_fin (b c : ℚ) (hb : b ≠ 0) :
    PFloat.mul (PFloat.div (PFloat.sub (.fin c) (.fin b)) (.fin b)) (.fin 100) =
      .fin ((c - b) / b * 100) := by
  have hcb : qAdd c (qNeg b) = c - b := by rw [qAdd_eq, qNeg_eq, sub_eq_add_neg]
  simp only [PFloat.sub, PFloat.add, PFloat.neg, PFloat.div, PFloat.mul, hcb,
    if_neg hb]
  rw [qMul_eq, qDiv_eq]

/-!  Claim C7 — the money parser. -/

/-- Claim C7, counterexample: the claim says the parser never yields a
not-a-number value, but `parse_money("nan")` strips nothing, `float("nan")`
succeeds, and the parser returns NaN (similarly for `"inf"` and for a float
NaN cell, which pandas hands over for blank numeric cells). -/
theorem c7_nan_string_counterexample :
    parse_money (Cell.str "nan") = some PFloat.nan := by decide

/-- Claim C7 (amended): `parse_money` maps `"$1,234.56"` to 1234.56, the
numeric value 1234.56 to itself, and blank, `None`, or unparseable input to
the unknown marker, never zero and never an exception; however the strings
accepted by `float()` include `"nan"`/`"inf"` (and a NaN float cell passes
through), which yield NaN/infinity rather than the unknown marker. -/
theorem c7_parser_amended :
    parse_money (.str "$1,234.56") = some (.fin (mkRat 123456 100)) ∧
    parse_money (.num (.fin (mkRat 123456 100))) = some (.fin (mkRat 123456 100)) ∧
    parse_money .blank = none ∧
    parse_money (.str "") = none ∧
    parse_money (.str "   ") = none ∧
    parse_money (.str "n/a") = none ∧
    parse_money (.str "nan") = some .nan ∧
    parse_money (.str "inf") = some .inf ∧
    parse_money (.num .nan) = some .nan ∧
    (∀ s : String,
      pyFloatOfChars (stripL (s.toList.filter (fun c => !(c = '$' || c = ',')))) = none →
      parse_money (.str s) = none) := by
  refine ⟨by decide, rfl, rfl, by decide, by decide, by decide, by decide,
    by decide, rfl, ?_⟩
  intro s h
  simp only [parse_money]
  split
  · rfl
  · exact h

/-- Witness for the hypothesis-bearing conjunct of `c7_parser_amended`:
the unparseable string `"abc"` maps to the unknown marker. -/
theorem c7_parser_amended_witness :
    parse_money (.str "abc") = none :=
  c7_parser_amended.2.2.2.2.2.2.2.2.2 "abc" (by decide)

/-!  Claim C5 — aggregate totals. -/

/-- Claim C5, code-bug evaluation: one holding with positive units and an
unparseable buy price.  Its cost basis is NaN, so
`holdings["CostBasis"].sum(min_count=1)` is NaN, and the `or 0` fallback
never fires because NaN is truthy in Python — the total cost basis leaves
`build` as NaN, where the claim (and the `or 0` in the source, line 179)
want exactly 0.  The day-dollar aggregate, guarded by `pd.isna` instead
(lines 181-183), does come out as 0. -/
theorem c5_total_cost_nan_eval :
    (cockpitBuild
      [{ stockName := "Acme", symbol := "ABC", unitsCell := .str "1",
         buyCell := .str "abc", sellCell := .blank, currentCell := .str "95",
         decRefCell := .str "90", targetCell := .str "130" }]
      (fun _ => .err) []).totalCost = PFloat.nan ∧
    (cockpitBuild
      [{ stockName := "Acme", symbol := "ABC", unitsCell := .str "1",
         buyCell := .str "abc", sellCell := .blank, currentCell := .str "95",
         decRefCell := .str "90", targetCell := .str "130" }]
      (fun _ => .err) []).dayMove = PFloat.fin 0 := by
  constructor <;> decide

/-!  Claim C1 — percent vs. buy and vs. reference guards. -/

/-- Claim C1, counterexample: a holding with buy price `$0.00` and snapshot
current price 95 (quote fetch failing).  The claim requires the unknown
marker for a zero denominator, but `((Current - Buy) / Buy) * 100`
(line 170) follows numpy semantics and produces +infinity. -/
theorem c1_zero_buy_counterexample :
    (cockpitBuild
      [{ stockName := "Acme", symbol := "ABC", unitsCell := .str "1",
         buyCell := .str "$0.00", sellCell := .blank, currentCell := .str "95",
         decRefCell := .str "90", targetCell := .str "130" }]
      (fun _ => .err) []).records.map (fun r => r.pctVsBuy) = [PFloat.inf] := by
  decide

/-- Claim C1 (amended): for every derived row, percent vs. buy is exactly
`((current - buy) / buy) * 100` under IEEE semantics and never raises: an
undefined (NaN) buy price yields the NaN unknown marker, finite operands
with nonzero buy give the exact rational value, but a buy price of exactly
zero yields ±infinity (or NaN for 0/0) rather than the unknown marker —
sanitization to null happens only later in `clean_for_json`.  The same
holds for percent vs. the December reference price. -/
theorem c1_pct_guard (quotes : List (String × Quote)) (raw : RawRow) :
    ((deriveRow quotes raw).buy = .nan → (deriveRow quotes raw).pctVsBuy = .nan) ∧
    ((deriveRow quotes raw).buy = .fin 0 →
      (deriveRow quotes raw).pctVsBuy = .nan ∨
      (deriveRow quotes raw).pctVsBuy = .inf ∨
      (deriveRow quotes raw).pctVsBuy = .ninf) ∧
    (∀ b c : ℚ, b ≠ 0 → (deriveRow quotes raw).buy = .fin b →
      (deriveRow quotes raw).current = .fin c →
      (deriveRow quotes raw).pctVsBuy = .fin ((c - b) / b * 100)) ∧
    ((deriveRow quotes raw).decRef = .nan → (deriveRow quotes raw).pctVsDec = .nan) ∧
    ((deriveRow quotes raw).decRef = .fin 0 →
      (deriveRow quotes raw).pctVsDec = .nan ∨
      (deriveRow quotes raw).pctVsDec = .inf ∨
      (deriveRow quotes raw).pctVsDec = .ninf) ∧
    (∀ b c : ℚ, b ≠ 0 → (deriveRow quotes raw).decRef = .fin b →
      (deriveRow quotes raw).current = .fin c →
      (deriveRow quotes raw).pctVsDec = .fin ((c - b) / b * 100)) := by
  set d := deriveRow quotes raw with hd
  have hbuy : d.pctVsBuy =
      PFloat.mul (PFloat.div (PFloat.sub d.current d.buy) d.buy) (.fin 100) := by
    rw [hd]; rfl
  have hdec : d.pctVsDec =
      PFloat.mul (PFloat.div (PFloat.sub d.current d.decRef) d.decRef) (.fin 100) := by
    rw [hd]; rfl
  refine ⟨?_, ?_, ?_, ?_, ?_, ?_⟩
  · intro h; rw [hbuy, h]; exact pct_formula_nan d.current
  · intro h; rw [hbuy, h]; exact pct_formula_zero d.current
  · intro b c hb h1 h2; rw [hbuy, h1, h2]; exact pct_formula_fin b c hb
  · intro h; rw [hdec, h]; exact pct_formula_nan d.current
  · intro h; rw [hdec, h]; exact pct_formula_zero d.current
  · intro b c hb h1 h2; rw [hdec, h1, h2]; exact pct_formula_fin b c hb

/-- Witness for `c1_pct_guard`: a concrete row with buy 100 and snapshot
current 95 gives percent vs. buy exactly −5. -/
theorem c1_pct_guard_witness :
    (deriveRow []
      { stockName := "Acme", symbol := "ABC", unitsCell := .str "10",
        buyCell := .str "$100", sellCell := .blank, currentCell := .str "95",
        decRefCell := .str "90", targetCell := .str "130" }).pctVsBuy =
      .fin ((95 - 100) / 100 * 100) :=
  (c1_pct_guard []
    { stockName := "Acme", symbol := "ABC", unitsCell := .str "10",
      buyCell := .str "$100", sellCell := .blank, currentCell := .str "95",
      decRefCell := .str "90", targetCell := .str "130" }).2.2.1
    100 95 (by norm_num) (by decide) (by decide)

/-!  Claim C6 — static-snapshot fallback when the symbol has no quote. -/

/-- Claim C6 (confirmed): for a holding whose normalized symbol is absent
from the quote map, the resolved current price is the source snapshot cell
parsed by `parse_money`, and the day dollar change, day percent and week
percent columns are the NaN unknown marker (lines 151-168). -/
theorem c6_quote_fallback (quotes : List (String × Quote)) (raw : RawRow)
    (habs : lookupKV (cleanSym raw.symbol) quotes = none) :
    (deriveRow quotes raw).current = colF (parse_money raw.currentCell) ∧
    (deriveRow quotes raw).dayChange = .nan ∧
    (deriveRow quotes raw).dayPct = .nan ∧
    (deriveRow quotes raw).weekPct = .nan := by
  simp [deriveRow, habs, colF]

/-- Witness for `c6_quote_fallback`: the empty quote map resolves nothing,
and the snapshot price 95 comes through the money parser. -/
theorem c6_quote_fallback_witness :
    (deriveRow []
      { stockName := "Acme", symbol := "ABC", unitsCell := .str "10",
        buyCell := .str "$100", sellCell := .blank, currentCell := .str "95",
        decRefCell := .str "90", targetCell := .str "130" }).current =
      colF (parse_money (.str "95")) ∧
    (deriveRow []
      { stockName := "Acme", symbol := "ABC", unitsCell := .str "10",
        buyCell := .str "$100", sellCell := .blank, currentCell := .str "95",
        decRefCell := .str "90", targetCell := .str "130" }).dayPct = .nan :=
  ⟨(c6_quote_fallback [] _ (by decide)).1, (c6_quote_fallback [] _ (by decide)).2.2.1⟩

/-!  Claim C8 — the quote session window. -/

/-- Truthiness of a float is exactly being different from `0.0`. -/
theorem truthy_iff (x : PFloat) : x.truthy = true ↔ x ≠ .fin 0 := by
  cases x <;> simp [PFloat.truthy]

/-- Claim C8, counterexample: five usable sessions whose oldest close is
`0.0`.  The claim says the week-over-week percent then equals
`(last − oldest) / oldest × 100` (which is +infinity here), but the
truthiness guard `if week_ago` (line 59) treats the zero close as missing
and returns the unknown marker instead. -/
theorem c8_zero_baseline_counterexample :
    (fetch_quote (.ok [.fin 0, .fin 1, .fin 1, .fin 1, .fin 2])).map Quote.week_pct =
      some none ∧
    (usableCloses [.fin 0, .fin 1, .fin 1, .fin 1, .fin 2]).length = 5 ∧
    PFloat.mul (PFloat.div (PFloat.sub (.fin 2) (.fin 0)) (.fin 0)) (.fin 100) =
      .inf := by
  refine ⟨by decide, by decide, by decide⟩

/-- Claim C8 (amended): `fetch_quote` first discards sessions with a missing
(NaN) close; with no usable session it returns nothing, with exactly one
usable session the day fields are the unknown marker but that session's
close is still returned as the current price; the returned price is always
the last usable close; and the week-over-week percent equals
`(last − oldest) / oldest × 100` exactly when at least 5 usable sessions are
present and the oldest close is nonzero, otherwise it is the unknown
marker (the zero-oldest-close case being the amendment). -/
theorem c8_quote_window (closes : List PFloat) :
    (usableCloses closes = [] → fetch_quote (.ok closes) = none) ∧
    (∀ c, usableCloses closes = [c] →
      fetch_quote (.ok closes) = some ⟨c, none, none, none, none⟩) ∧
    (∀ q, fetch_quote (.ok closes) = some q →
      (usableCloses closes).getLast? = some q.price) ∧
    (∀ q, fetch_quote (.ok closes) = some q →
      (usableCloses closes).length < 5 → q.week_pct = none) ∧
    (∀ q hd, fetch_quote (.ok closes) = some q →
      5 ≤ (usableCloses closes).length →
      (usableCloses closes).head? = some hd → hd ≠ .fin 0 →
      q.week_pct =
        some (PFloat.mul (PFloat.div (PFloat.sub q.price hd) hd) (.fin 100))) ∧
    (∀ q, fetch_quote (.ok closes) = some q →
      5 ≤ (usableCloses closes).length →
      (usableCloses closes).head? = some (.fin 0) → q.week_pct = none) := by
  refine ⟨?_, ?_, ?_, ?_, ?_, ?_⟩
  · intro h
    simp [fetch_quote, h]
  · intro c h
    simp [fetch_quote, h, quoteFrom, prevClose, dayFields, weekPctOf]
  · intro q hq
    rcases hgl : (usableCloses closes).getLast? with _ | price <;>
      simp [fetch_quote, hgl] at hq
    rw [← hq, quoteFrom]
  · intro q hq h5
    rcases hgl : (usableCloses closes).getLast? with _ | price <;>
      simp [fetch_quote, hgl] at hq
    rw [← hq]
    simp [quoteFrom, weekPctOf, Nat.not_le.mpr h5]
  · intro q hd hq h5 hhd hz
    rcases hgl : (usableCloses closes).getLast? with _ | price <;>
      simp [fetch_quote, hgl] at hq
    rw [← hq]
    simp [quoteFrom, weekPctOf, h5, hhd, (truthy_iff hd).mpr hz]
  · intro q hq h5 hhd
    rcases hgl : (usableCloses closes).getLast? with _ | price <;>
      simp [fetch_quote, hgl] at hq
    rw [← hq]
    simp [quoteFrom, weekPctOf, h5, hhd, PFloat.truthy]

/-- Witness for `c8_quote_window`: five usable closes `1,1,1,1,2` give a
week-over-week percent of `(2 − 1) / 1 × 100`. -/
theorem c8_quote_window_witness :
    (quoteFrom (usableCloses [.fin 1, .fin 1, .fin 1, .fin 1, .fin 2])
        (.fin 2)).week_pct =
      some (PFloat.mul (PFloat.div (PFloat.sub
        (quoteFrom (usableCloses [.fin 1, .fin 1, .fin 1, .fin 1, .fin 2])
          (.fin 2)).price (.fin 1)) (.fin 1)) (.fin 100)) :=
  (c8_quote_window [.fin 1, .fin 1, .fin 1, .fin 1, .fin 2]).2.2.2.2.1 _ _
    (by decide) (by decide) (by decide) (by decide)

/-!  Claim C4 — the classifier. -/

/-- The claim's reading of "unknown treated as 0": substitute 0 for NaN. -/
def nanToZero (x : PFloat) : PFloat := if x = .nan then .fin 0 else x

/-- Decline-type triggers are those of rules 1-4 (claim C4's wording for
the status derivation). -/
def isDeclineLabel (t : String) : Bool :=
  t = declineDay || t = declineWeek || t = declineBuy || t = declineDec

/-- The trigger list as claim C4 describes it, with the one amendment the
counterexample forces: the target rule requires target and current to be
defined AND NONZERO (the code's truthiness test), not merely defined. -/
def specTriggers (r : RowD) : List String :=
  flag (PFloat.le (nanToZero r.dayPct) (.fin (mkRat (-3) 1))) declineDay ++
  flag (PFloat.le (nanToZero r.weekPct) (.fin (mkRat (-10) 1))) declineWeek ++
  flag (PFloat.le (nanToZero r.pctVsBuy) (.fin (mkRat (-15) 1))) declineBuy ++
  flag (PFloat.le (nanToZero r.pctVsDec) (.fin (mkRat (-20) 1))) declineDec ++
  flag (!r.target.isNan && decide (r.target ≠ .fin 0) &&
        !r.current.isNan && decide (r.current ≠ .fin 0) &&
        PFloat.le r.target r.current) targetLabel

/-- Claim C4's status derivation: no triggers → stable, at least one
decline-type (rules 1-4) trigger → attention, otherwise → action. -/
def classifySpecAmended (r : RowD) : String × List String :=
  (if (specTriggers r).isEmpty then "stable"
   else if (specTriggers r).any isDeclineLabel then "attention"
   else "action",
   specTriggers r)

/-- An `or 0`-defaulted metric and a NaN-to-zero-substituted metric land on
the same side of any negative threshold (NaN compares false, exactly as 0
does against a negative bound). -/
theorem pyOr_zero_le_neg (x : PFloat) (q : ℚ) (hq : q < 0) :
    PFloat.le (pyOrF x (.fin 0)) (.fin q) = PFloat.le (nanToZero x) (.fin q) := by
  cases x with
  | fin a =>
      by_cases ha : a = 0 <;>
        simp [pyOrF, nanToZero, PFloat.truthy, PFloat.le, ha]
  | nan =>
      simp [pyOrF, nanToZero, PFloat.truthy, PFloat.le, not_le.mpr hq]
  | inf => rfl
  | ninf => rfl

/-- The code's truthiness guard on the target rule coincides with
"defined and nonzero" for both operands. -/
theorem target_cond_eq (t c : PFloat) :
    (t.truthy && c.truthy && PFloat.le t c) =
    (!t.isNan && decide (t ≠ .fin 0) && !c.isNan && decide (c ≠ .fin 0) &&
      PFloat.le t c) := by
  cases t <;> cases c <;>
    simp [PFloat.truthy, PFloat.isNan, PFloat.le, Bool.and_assoc]

/-- A trigger produced by a flag is its label. -/
theorem mem_flag {t lab : String} {b : Bool} (h : t ∈ flag b lab) : t = lab := by
  unfold flag at h
  split at h
  · simpa using h
  · simp at h

/-- Every element of the code's trigger list is one of the five labels. -/
theorem mem_classifyTriggers (r : RowD) (t : String)
    (h : t ∈ classifyTriggers r) :
    t = declineDay ∨ t = declineWeek ∨ t = declineBuy ∨ t = declineDec ∨
      t = targetLabel := by
  unfold classifyTriggers at h
  rcases List.mem_append.mp h with h4 | h5
  · rcases List.mem_append.mp h4 with h3 | hd
    · rcases List.mem_append.mp h3 with h2 | hc
      · rcases List.mem_append.mp h2 with h1 | hb
        · exact Or.inl (mem_flag h1)
        · exact Or.inr (Or.inl (mem_flag hb))
      · exact Or.inr (Or.inr (Or.inl (mem_flag hc)))
    · exact Or.inr (Or.inr (Or.inr (Or.inl (mem_flag hd))))
  · exact Or.inr (Or.inr (Or.inr (Or.inr (mem_flag h5))))

/-- On the five labels, `startswith "▼")` recognizes exactly the
decline-type rules. -/
theorem any_startsDown_eq (l : List String)
    (h : ∀ t ∈ l, t = declineDay ∨ t = declineWeek ∨ t = declineBuy ∨
      t = declineDec ∨ t = targetLabel) :
    l.any startsDown = l.any isDeclineLabel := by
  induction l with
  | nil => rfl
  | cons x xs ih =>
      simp only [List.any_cons]
      rw [ih (fun t ht => h t (List.mem_cons_of_mem _ ht))]
      congr 1
      rcases h x (List.mem_cons_self _ _) with rfl | rfl | rfl | rfl | rfl <;>
        decide

/-- The code's trigger list is the claim's (amended) trigger list. -/
theorem classifyTriggers_eq_spec (r : RowD) :
    classifyTriggers r = specTriggers r := by
  unfold classifyTriggers specTriggers
  rw [pyOr_zero_le_neg r.dayPct _ (by norm_num),
    pyOr_zero_le_neg r.weekPct _ (by norm_num),
    pyOr_zero_le_neg r.pctVsBuy _ (by norm_num),
    pyOr_zero_le_neg r.pctVsDec _ (by norm_num),
    target_cond_eq]

/-- Claim C4, counterexample row: target price 0, current price 5, no quote
metrics. -/
def c4row : RowD :=
  { name := "X", symbolClean := "X", units := .fin 1, buy := .nan, sell := .nan,
    currentExcel := .fin 5, decRef := .nan, target := .fin 0, current := .fin 5,
    dayChange := .nan, dayPct := .nan, weekPct := .nan, pctVsBuy := .nan,
    pctVsDec := .nan, costBasis := .nan, currentValue := .nan, dayDollar := .nan }

/-- Claim C4, counterexample: the claim fires "target reached" (status
`action`) whenever target and current are both defined and current ≥
target; here both are defined and `5 ≥ 0`, yet `classify` returns no
triggers and `stable`, because the Python truthiness guard
`if target and current` (line 100) treats the 0.0 target as missing. -/
theorem c4_target_zero_counterexample :
    c4row.target = .fin 0 ∧ c4row.current = .fin 5 ∧
    PFloat.le c4row.target c4row.current = true ∧
    classify c4row = ("stable", []) := by
  refine ⟨rfl, rfl, by decide, by decide⟩

/-- Claim C4 (amended): for every derived position the classifier
deterministically collects all matching triggers in rule order — day ≤ −3,
week ≤ −10, vs-buy ≤ −15, vs-reference ≤ −20, each boundary-inclusive with
an unknown (NaN) metric treated as 0, plus "target reached" exactly when
target and current are both defined AND NONZERO and current ≥ target — and
derives the status: no triggers → stable, any decline trigger → attention,
only the target trigger → action. -/
theorem c4_classifier (r : RowD) : classify r = classifySpecAmended r := by
  unfold classify classifySpecAmended
  rw [classifyTriggers_eq_spec,
    any_startsDown_eq _ (fun t ht =>
      mem_classifyTriggers r t (by rwa [classifyTriggers_eq_spec]))]

/-!  Claim C3 — sanitization of the serialized record set. -/

/-- `clean_for_json` leaves every numeric slot finite or null. -/
theorem jNumOk_cleanF (x : PFloat) : jNumOk (cleanF x) = true := by
  cases x <;> rfl

/-- A cleaned record passes the finite-or-null check on every field. -/
theorem cRecOk_cleanRec (r : Rec) : cRecOk (cleanRec r) = true := by
  simp [cRecOk, cleanRec, jNumOk_cleanF]

/-- Claim C3 (amended, cockpit half): every numeric field of every record in
the four JSON payloads the cockpit hands to the report consumer (positions,
attention queue, winners, losers) is a finite number or null — they all
pass through `clean_for_json` (lines 234-237), which maps NaN and ±Infinity
to `None`. -/
theorem c3_cockpit_sanitized (rows : List RawRow) (oracle : String → FetchResult)
    (notes : List (String × String)) :
    (∀ c ∈ (cockpitBuild rows oracle notes).recordsClean, cRecOk c = true) ∧
    (∀ c ∈ (cockpitBuild rows oracle notes).attentionClean, cRecOk c = true) ∧
    (∀ c ∈ (cockpitBuild rows oracle notes).winnersClean, cRecOk c = true) ∧
    (∀ c ∈ (cockpitBuild rows oracle notes).losersClean, cRecOk c = true) := by
  have hr : (cockpitBuild rows oracle notes).recordsClean =
      ((cockpitBuild rows oracle notes).records).map cleanRec := rfl
  have ha : (cockpitBuild rows oracle notes).attentionClean =
      (((cockpitBuild rows oracle notes).attentionSorted).take 10).map cleanRec := rfl
  have hw : (cockpitBuild rows oracle notes).winnersClean =
      ((cockpitBuild rows oracle notes).topWinners).map cleanRec := rfl
  have hl : (cockpitBuild rows oracle notes).losersClean =
      ((cockpitBuild rows oracle notes).topLosers).map cleanRec := rfl
  refine ⟨?_, ?_, ?_, ?_⟩ <;> intro c hc
  · rw [hr] at hc
    rcases List.mem_map.mp hc with ⟨r, _, rfl⟩
    exact cRecOk_cleanRec r
  · rw [ha] at hc
    rcases List.mem_map.mp hc with ⟨r, _, rfl⟩
    exact cRecOk_cleanRec r
  · rw [hw] at hc
    rcases List.mem_map.mp hc with ⟨r, _, rfl⟩
    exact cRecOk_cleanRec r
  · rw [hl] at hc
    rcases List.mem_map.mp hc with ⟨r, _, rfl⟩
    exact cRecOk_cleanRec r

/-- The row used by several concrete evaluations: positive units, an
unparseable buy-price cell, a snapshot current price of 95. -/
def rowBadBuy : RawRow :=
  { stockName := "Acme", symbol := "ABC", unitsCell := .str "1",
    buyCell := .str "abc", sellCell := .blank, currentCell := .str "95",
    decRefCell := .str "90", targetCell := .str "130" }

/-- Witness for `c3_cockpit_sanitized`: on a concrete run every cleaned
record passes the finite-or-null check. -/
theorem c3_cockpit_sanitized_witness :
    ((cockpitBuild [rowBadBuy] (fun _ => .err) []).recordsClean.all cRecOk) = true :=
  List.all_eq_true.mpr
    (fun c hc => (c3_cockpit_sanitized [rowBadBuy] (fun _ => .err) []).1 c hc)

/-- Claim C3, counterexample (MVP half): the MVP script serializes
`interactive_records` with a bare `json.dumps` (line 380) — no
`clean_for_json` exists there — so the NaN percent-vs-buy of a holding with
an unparseable buy price reaches the external consumer as a NaN token,
which is neither a finite number nor the null-equivalent unknown marker. -/
theorem c3_mvp_counterexample :
    ((mvpBuild [rowBadBuy] (fun _ => .err)).interactive.map
      (fun m => mvpFieldJson m.pctVsBuy)) = [JNum.num PFloat.nan] ∧
    jNumOk (JNum.num PFloat.nan) = false := by
  refine ⟨by decide, rfl⟩

/-!  Claim C2 — per-symbol failure isolation in the quote fetcher. -/

/-- Lookup after inserting one binding at the back of the dict. -/
theorem lookupKV_append {β : Type} (t k : String) (v : β)
    (acc : List (String × β)) :
    lookupKV t (acc ++ [(k, v)]) =
      (match lookupKV t acc with
       | some w => some w
       | none => if t = k then some v else none) := by
  induction acc with
  | nil => rfl
  | cons p rest ih =>
      obtain ⟨k2, v2⟩ := p
      simp only [List.cons_append, lookupKV]
      by_cases h : t = k2 <;> simp [h, ih]

/-- A symbol whose fetch fails is never inserted by the fetch loop. -/
theorem fq_aux_absent (oracle : String → FetchResult) (s : String)
    (hfail : fetch_quote (oracle s) = none) :
    ∀ (symbols : List String) (acc : List (String × Quote)),
      lookupKV s acc = none →
      lookupKV s (fetch_quotes_aux oracle symbols acc) = none := by
  intro symbols
  induction symbols with
  | nil => intro acc h; simpa [fetch_quotes_aux] using h
  | cons sym rest ih =>
      intro acc h
      simp only [fetch_quotes_aux]
      split
      · exact ih acc h
      · rcases hfq : fetch_quote (oracle (cleanSym sym)) with _ | q
        · exact ih acc h
        · apply ih
          rw [lookupKV_append, h]
          by_cases hsc : s = cleanSym sym
          · rw [hsc] at hfail
            rw [hfail] at hfq
            exact absurd hfq (by simp)
          · simp [hsc]

/-- The entry the fetch loop produces for a symbol depends only on the
oracle's answer at that symbol (and the accumulator's entry for it) — not
on what the oracle does for any other symbol. -/
theorem fq_aux_congr (o o2 : String → FetchResult) (t : String)
    (ho : o t = o2 t) :
    ∀ (symbols : List String) (acc acc2 : List (String × Quote)),
      lookupKV t acc = lookupKV t acc2 →
      lookupKV t (fetch_quotes_aux o symbols acc) =
        lookupKV t (fetch_quotes_aux o2 symbols acc2) := by
  intro symbols
  induction symbols with
  | nil => intro acc acc2 h; simpa [fetch_quotes_aux] using h
  | cons sym rest ih =>
      intro acc acc2 h
      by_cases hct : cleanSym sym = t
      · subst hct
        simp only [fetch_quotes_aux]
        have hcnd : (decide (cleanSym sym = "") ||
            (lookupKV (cleanSym sym) acc).isSome) =
            (decide (cleanSym sym = "") ||
            (lookupKV (cleanSym sym) acc2).isSome) := by rw [h]
        rw [hcnd, ho]
        by_cases hc2 : (decide (cleanSym sym = "") ||
            (lookupKV (cleanSym sym) acc2).isSome) = true
        · rw [if_pos hc2, if_pos hc2]
          exact ih acc acc2 h
        · rw [if_neg hc2, if_neg hc2]
          rcases hfq : fetch_quote (o2 (cleanSym sym)) with _ | q
          · exact ih acc acc2 h
          · apply ih
            rw [lookupKV_append, lookupKV_append, h]
      · have key : ∀ (o3 : String → FetchResult) (a : List (String × Quote)),
            ∃ a2, fetch_quotes_aux o3 (sym :: rest) a =
              fetch_quotes_aux o3 rest a2 ∧ lookupKV t a2 = lookupKV t a := by
          intro o3 a
          by_cases hc : (decide (cleanSym sym = "") ||
              (lookupKV (cleanSym sym) a).isSome) = true
          · exact ⟨a, by simp only [fetch_quotes_aux]; rw [if_pos hc], rfl⟩
          · rcases hfq : fetch_quote (o3 (cleanSym sym)) with _ | q
            · exact ⟨a, by simp only [fetch_quotes_aux]; rw [if_neg hc, hfq], rfl⟩
            · refine ⟨a ++ [(cleanSym sym, q)],
                by simp only [fetch_quotes_aux]; rw [if_neg hc, hfq], ?_⟩
              rw [lookupKV_append]
              cases hla : lookupKV t a
              · simp only []
                exact if_neg (fun h => hct h.symm)
              · simp
        obtain ⟨a1, he1, hl1⟩ := key o acc
        obtain ⟨a2, he2, hl2⟩ := key o2 acc2
        rw [he1, he2]
        exact ih a1 a2 (by rw [hl1, hl2, h])

/-- Inserting keeps the length plus one. -/
theorem insertB_length {α : Type} (le : α → α → Bool) (x : α) (l : List α) :
    (insertB le x l).length = l.length + 1 := by
  induction l with
  | nil => rfl
  | cons y ys ih =>
      simp only [insertB]
      split
      · rfl
      · simp [ih]

/-- Sorting preserves length. -/
theorem sortB_length {α : Type} (le : α → α → Bool) (l : List α) :
    (sortB le l).length = l.length := by
  induction l with
  | nil => rfl
  | cons x xs ih => simp [sortB, insertB_length, ih]

/-- How many rows pass the positive-units filter never depends on the quote
map (units come from the source cells only). -/
theorem holdings_len_quote_free (rows : List RawRow)
    (q1 q2 : List (String × Quote)) :
    ((rows.map (deriveRow q1)).filter
      (fun r => PFloat.lt (.fin 0) (fillna0 r.units))).length =
    ((rows.map (deriveRow q2)).filter
      (fun r => PFloat.lt (.fin 0) (fillna0 r.units))).length := by
  induction rows with
  | nil => rfl
  | cons r rest ih =>
      simp only [List.map_cons, List.filter_cons]
      have hc : (PFloat.lt (.fin 0) (fillna0 (deriveRow q1 r).units)) =
          (PFloat.lt (.fin 0) (fillna0 (deriveRow q2 r).units)) := rfl
      rw [hc]
      cases (PFloat.lt (.fin 0) (fillna0 (deriveRow q2 r).units)) <;> simp [ih]

/-- Claim C2 (confirmed): if the quote fetch for a symbol fails (any
exception, or no usable session data — both give `fetch_quote = None`),
that symbol is entirely absent from the returned mapping; the entry of
every other symbol is unchanged by anything the oracle does at the failing
symbol; and the pipeline still completes with a full record set — the
number of reported positions is the same as under any other oracle. -/
theorem c2_failure_isolation (oracle oracle2 : String → FetchResult)
    (symbols : List String) (rows : List RawRow)
    (notes : List (String × String)) (s : String)
    (hfail : fetch_quote (oracle s) = none)
    (hagree : ∀ t, t ≠ s → oracle t = oracle2 t) :
    lookupKV s (fetch_quotes oracle symbols) = none ∧
    (∀ t, t ≠ s → lookupKV t (fetch_quotes oracle symbols) =
      lookupKV t (fetch_quotes oracle2 symbols)) ∧
    (cockpitBuild rows oracle notes).records.length =
      (cockpitBuild rows oracle2 notes).records.length := by
  refine ⟨fq_aux_absent oracle s hfail symbols [] rfl, ?_, ?_⟩
  · intro t ht
    exact fq_aux_congr oracle oracle2 t (hagree t ht) symbols [] [] rfl
  · show ((sortOn _ _).map (mkRecord notes)).length =
      ((sortOn _ _).map (mkRecord notes)).length
    rw [List.length_map, List.length_map, sortOn, sortOn, sortB_length,
      sortB_length]
    exact holdings_len_quote_free rows _ _

/-- Witness for `c2_failure_isolation`: with an oracle that fails on
everything, the symbol `"ABC"` is absent from the quote map. -/
theorem c2_failure_isolation_witness :
    lookupKV "ABC" (fetch_quotes (fun _ => .err) ["ABC"]) = none :=
  (c2_failure_isolation (fun _ => .err) (fun _ => .err) ["ABC"] [rowBadBuy] []
    "ABC" rfl (fun _ _ => rfl)).1

/-!  Sorting lemmas. -/

/-- Membership through stable insertion. -/
theorem mem_insertB {α : Type} (le : α → α → Bool) (x a : α) (l : List α) :
    a ∈ insertB le x l ↔ a = x ∨ a ∈ l := by
  induction l with
  | nil => simp [insertB]
  | cons y ys ih =>
      simp only [insertB]
      split
      · simp
      · simp only [List.mem_cons, ih]
        tauto

/-- Insertion builds a permutation of pushing in front. -/
theorem insertB_perm {α : Type} (le : α → α → Bool) (x : α) (l : List α) :
    (insertB le x l).Perm (x :: l) := by
  induction l with
  | nil => rfl
  | cons y ys ih =>
      simp only [insertB]
      split
      · rfl
      · exact (List.Perm.cons y ih).trans (List.Perm.swap x y ys)

/-- The sort permutes its input. -/
theorem sortB_perm {α : Type} (le : α → α → Bool) (l : List α) :
    (sortB le l).Perm l := by
  induction l with
  | nil => rfl
  | cons x xs ih => exact (insertB_perm le x (sortB le xs)).trans (ih.cons x)

/-- Membership is preserved by the sort. -/
theorem mem_sortB {α : Type} (le : α → α → Bool) (a : α) (l : List α) :
    a ∈ sortB le l ↔ a ∈ l :=
  (sortB_perm le l).mem_iff

/-- Insertion only ever consults the comparison between the inserted element
and members of the list. -/
theorem insertB_congr {α : Type} (le le2 : α → α → Bool) (x : α) (l : List α)
    (hx : ∀ b ∈ l, le x b = le2 x b) :
    insertB le x l = insertB le2 x l := by
  induction l with
  | nil => rfl
  | cons y ys ih =>
      simp only [insertB]
      rw [hx y (List.mem_cons_self _ _),
        ih (fun b hb => hx b (List.mem_cons_of_mem _ hb))]

/-- The sort only ever consults comparisons between members of the list. -/
theorem sortB_congr {α : Type} (le le2 : α → α → Bool) (l : List α)
    (h : ∀ a ∈ l, ∀ b ∈ l, le a b = le2 a b) :
    sortB le l = sortB le2 l := by
  induction l with
  | nil => rfl
  | cons x xs ih =>
      simp only [sortB]
      rw [ih (fun a ha b hb =>
        h a (List.mem_cons_of_mem _ ha) b (List.mem_cons_of_mem _ hb))]
      exact insertB_congr le le2 x (sortB le2 xs) (fun b hb =>
        h x (List.mem_cons_self _ _) b
          (List.mem_cons_of_mem _ ((mem_sortB le2 b xs).mp hb)))

/-- Insertion into a sorted list keeps it sorted, for a total transitive
comparison. -/
theorem insertB_pairwise {α : Type} (le : α → α → Bool)
    (htot : ∀ a b, le a b = true ∨ le b a = true)
    (htrans : ∀ a b c, le a b = true → le b c = true → le a c = true)
    (x : α) (l : List α) (hp : l.Pairwise (fun a b => le a b = true)) :
    (insertB le x l).Pairwise (fun a b => le a b = true) := by
  induction l with
  | nil => simp [insertB]
  | cons y ys ih =>
      rcases List.pairwise_cons.mp hp with ⟨hy, hys⟩
      simp only [insertB]
      by_cases hxy : le x y = true
      · rw [if_pos hxy]
        refine List.pairwise_cons.mpr ⟨?_, hp⟩
        intro b hb
        rcases List.mem_cons.mp hb with rfl | hb2
        · exact hxy
        · exact htrans x y b hxy (hy b hb2)
      · rw [if_neg hxy]
        refine List.pairwise_cons.mpr ⟨?_, ih hys⟩
        intro b hb
        rcases (mem_insertB le x b ys).mp hb with rfl | hb2
        · rcases htot b y with h | h
          · exact absurd h hxy
          · exact h
        · exact hy b hb2

/-- The sort output is sorted, for a total transitive comparison. -/
theorem sortB_pairwise {α : Type} (le : α → α → Bool)
    (htot : ∀ a b, le a b = true ∨ le b a = true)
    (htrans : ∀ a b c, le a b = true → le b c = true → le a c = true)
    (l : List α) :
    (sortB le l).Pairwise (fun a b => le a b = true) := by
  induction l with
  | nil => simp [sortB]
  | cons x xs ih => exact insertB_pairwise le htot htrans x (sortB le xs) ih

/-- The pandas key order is total. -/
theorem pfKeyLe_total (a b : PFloat) :
    pfKeyLe a b = true ∨ pfKeyLe b a = true := by
  cases a <;> cases b
  all_goals simp [pfKeyLe]
  exact le_total _ _

/-- The pandas key order is transitive. -/
theorem pfKeyLe_trans (a b c : PFloat) (hab : pfKeyLe a b = true)
    (hbc : pfKeyLe b c = true) : pfKeyLe a c = true := by
  cases a <;> cases b <;> cases c
  all_goals simp_all [pfKeyLe]
  exact le_trans hab hbc

/-- The pandas key order is reflexive. -/
theorem pfKeyLe_refl (a : PFloat) : pfKeyLe a a = true := by
  cases a <;> simp [pfKeyLe]

/-- On NaN-free keys, the CPython `sorted` comparison is the pandas key
order. -/
theorem pySortLe_eq_pfKeyLe (a b : PFloat) (ha : a ≠ .nan) (hb : b ≠ .nan) :
    pySortLe a b = pfKeyLe a b := by
  cases a with
  | nan => exact absurd rfl ha
  | fin p =>
      cases b with
      | nan => exact absurd rfl hb
      | fin q =>
          simp only [pySortLe, pfKeyLe, PFloat.lt]
          rw [← decide_not, decide_eq_decide]
          exact not_lt
      | inf => rfl
      | ninf => rfl
  | inf =>
      cases b with
      | nan => exact absurd rfl hb
      | fin q => rfl
      | inf => rfl
      | ninf => rfl
  | ninf =>
      cases b with
      | nan => exact absurd rfl hb
      | fin q => rfl
      | inf => rfl
      | ninf => rfl

/-- On NaN-free values, the pandas key order is the IEEE `≤`. -/
theorem pfKeyLe_eq_le (a b : PFloat) (ha : a ≠ .nan) (hb : b ≠ .nan) :
    pfKeyLe a b = PFloat.le a b := by
  cases a <;> cases b <;> simp_all [pfKeyLe, PFloat.le]

/-- IEEE `≤` is reflexive away from NaN. -/
theorem pfLe_refl_of_ne_nan (x : PFloat) (h : x ≠ .nan) :
    PFloat.le x x = true := by
  cases x <;> simp_all [PFloat.le]

/-- The last element of a list is in the list. -/
theorem mem_of_getLastQ {α : Type} {l : List α} {b : α}
    (h : l.getLast? = some b) : b ∈ l := by
  induction l with
  | nil => simp at h
  | cons x xs ih =>
      cases xs with
      | nil => simp_all
      | cons y ys =>
          rw [List.getLast?_cons_cons] at h
          exact List.mem_cons_of_mem _ (ih h)

/-- In a pairwise-sorted list, every element relates to the last one (or is
it). -/
theorem pairwise_rel_getLast {α : Type} {R : α → α → Prop} :
    ∀ (l : List α), l.Pairwise R → ∀ {b : α}, l.getLast? = some b →
      ∀ a ∈ l, a = b ∨ R a b := by
  intro l
  induction l with
  | nil => intro _ b hb; simp at hb
  | cons x xs ih =>
      intro hp b hb a ha
      cases xs with
      | nil =>
          simp only [List.getLast?_singleton, Option.some.injEq] at hb
          rcases List.mem_singleton.mp ha with rfl
          exact Or.inl hb
      | cons y ys =>
          rw [List.getLast?_cons_cons] at hb
          rcases List.mem_cons.mp ha with rfl | h2
          · exact Or.inr ((List.pairwise_cons.mp hp).1 b (mem_of_getLastQ hb))
          · exact ih (List.pairwise_cons.mp hp).2 hb a h2

/-!  Claim C10 — order of the record list and the top-mover symbol. -/

/-- The record list is the sorted holdings, mapped to records. -/
theorem cockpit_records_def (rows : List RawRow) (oracle : String → FetchResult)
    (notes : List (String × String)) :
    (cockpitBuild rows oracle notes).records =
      (sortOn (fun r => r.pctVsBuy)
        ((rows.map (deriveRow (cockpitBuild rows oracle notes).quotes)).filter
          (fun r => PFloat.lt (.fin 0) (fillna0 r.units)))).map
        (mkRecord notes) := rfl

/-- The top-mover symbol is read off the last record. -/
theorem cockpit_topSymbol_def (rows : List RawRow)
    (oracle : String → FetchResult) (notes : List (String × String)) :
    (cockpitBuild rows oracle notes).topSymbol =
      (match (cockpitBuild rows oracle notes).records.getLast? with
       | some rec => rec.symbol
       | none => "—") := rfl

/-- A gaining holding: buy 100, snapshot current 150. -/
def rowGain : RawRow :=
  { stockName := "Gain", symbol := "AAA", unitsCell := .str "1",
    buyCell := .str "$100", sellCell := .blank, currentCell := .str "150",
    decRefCell := .str "100", targetCell := .str "1000" }

/-- Claim C10, counterexample: with one +50% holding and one whose buy price
is unparseable, `sort_values` places the NaN percent-vs-buy LAST
(`na_position="last"`), so the last record does not hold the largest
percent-vs-buy value — yet its symbol is the one reported as top mover. -/
theorem c10_nan_last_counterexample :
    (cockpitBuild [rowGain, rowBadBuy] (fun _ => .err) []).topSymbol = "ABC" ∧
    (cockpitBuild [rowGain, rowBadBuy] (fun _ => .err) []).records.map
      (fun r => (r.symbol, r.pctVsBuy)) =
      [("AAA", .fin (mkRat 50 1)), ("ABC", PFloat.nan)] ∧
    PFloat.le (.fin (mkRat 50 1)) PFloat.nan = false := by
  refine ⟨by decide, by decide, rfl⟩

/-- Claim C10 (amended): the record list handed to the report layer is
sorted ascending by percent vs. buy in the pandas key order, which places an
undefined (NaN) percent LAST; the top-mover symbol is always the last
record's symbol; and provided every percent-vs-buy is defined, the last
record does hold the largest percent-vs-buy value. -/
theorem c10_records_order (rows : List RawRow) (oracle : String → FetchResult)
    (notes : List (String × String)) :
    List.Pairwise (fun a b : Rec => pfKeyLe a.pctVsBuy b.pctVsBuy = true)
      (cockpitBuild rows oracle notes).records ∧
    (∀ rec, (cockpitBuild rows oracle notes).records.getLast? = some rec →
      (cockpitBuild rows oracle notes).topSymbol = rec.symbol) ∧
    (∀ rec lastRec,
      (∀ r ∈ (cockpitBuild rows oracle notes).records, r.pctVsBuy ≠ .nan) →
      (cockpitBuild rows oracle notes).records.getLast? = some lastRec →
      rec ∈ (cockpitBuild rows oracle notes).records →
      PFloat.le rec.pctVsBuy lastRec.pctVsBuy = true) := by
  have hpair : List.Pairwise
      (fun a b : Rec => pfKeyLe a.pctVsBuy b.pctVsBuy = true)
      (cockpitBuild rows oracle notes).records := by
    rw [cockpit_records_def]
    exact List.pairwise_map.mpr
      (sortB_pairwise (fun x y : RowD => pfKeyLe x.pctVsBuy y.pctVsBuy)
        (fun a b => pfKeyLe_total _ _) (fun a b c => pfKeyLe_trans _ _ _) _)
  refine ⟨hpair, ?_, ?_⟩
  · intro rec h
    rw [cockpit_topSymbol_def, h]
  · intro rec lastRec hnn hlast hmem
    rcases pairwise_rel_getLast _ hpair hlast rec hmem with rfl | hrel
    · exact pfLe_refl_of_ne_nan _ (hnn rec hmem)
    · rw [← pfKeyLe_eq_le _ _ (hnn rec hmem)
        (hnn lastRec (mem_of_getLastQ hlast))]
      exact hrel

/-- Witness for `c10_records_order`: on a one-row run the reported top-mover
symbol is the last record's symbol. -/
theorem c10_records_order_witness :
    (cockpitBuild [rowGain] (fun _ => .err) []).topSymbol =
      ((cockpitBuild [rowGain] (fun _ => .err) []).records.getLast?.getD
        (mkRecord [] (deriveRow [] rowGain))).symbol :=
  (c10_records_order [rowGain] (fun _ => .err) []).2.1 _ (by decide)

/-!  Claim C9 — attention queue and winners/losers rankings. -/

/-- An `or`-defaulted key cannot be NaN when the metric is not NaN. -/
theorem pyOrF_ne_nan {x : PFloat} (c : ℚ) (hx : x ≠ .nan) :
    pyOrF x (.fin c) ≠ .nan := by
  unfold pyOrF
  split
  · exact hx
  · simp

/-- Sorted-prefix facts: the first `n` of a sorted list are sorted, drawn
from the input, and compare below everything left out. -/
theorem take_of_sortB {α : Type} (le : α → α → Bool) (l : List α) (n : ℕ)
    (htot : ∀ a b, le a b = true ∨ le b a = true)
    (htrans : ∀ a b c, le a b = true → le b c = true → le a c = true) :
    ((sortB le l).take n).Pairwise (fun a b => le a b = true) ∧
    (∀ a ∈ (sortB le l).take n, a ∈ l) ∧
    (∀ a ∈ (sortB le l).take n, ∀ b ∈ l, b ∉ (sortB le l).take n →
      le a b = true) := by
  have hp := sortB_pairwise le htot htrans l
  refine ⟨hp.sublist (List.take_sublist n _), ?_, ?_⟩
  · intro a ha
    exact (mem_sortB le a l).mp (List.take_subset n _ ha)
  · intro a ha b hb hbn
    have hbs : b ∈ sortB le l := (mem_sortB le b l).mpr hb
    have hsplit := (List.take_append_drop n (sortB le l)).symm
    rcases List.mem_append.mp (hsplit ▸ hbs) with h1 | h2
    · exact absurd h1 hbn
    · exact (List.pairwise_append.mp (hsplit ▸ hp)).2.2 a ha b h2

/-- The −50%-under-buy holding whose quote shows a day percent of exactly
0.0. -/
def rowUnderBuy : RawRow :=
  { stockName := "Under", symbol := "AAA", unitsCell := .str "1",
    buyCell := .str "$200", sellCell := .blank, currentCell := .str "100",
    decRefCell := .str "100", targetCell := .str "1000" }

/-- The holding whose quote shows a −5% day drop. -/
def rowDayDrop : RawRow :=
  { stockName := "Drop", symbol := "BBB", unitsCell := .str "1",
    buyCell := .str "$100", sellCell := .blank, currentCell := .str "100",
    decRefCell := .str "100", targetCell := .str "1000" }

/-- Quotes: AAA unchanged at 100, BBB fell from 100 to 95. -/
def oracleTwoQuotes : String → FetchResult := fun s =>
  if s = "AAA" then .ok [.fin 100, .fin 100]
  else if s = "BBB" then .ok [.fin 100, .fin 95] else .err

/-- Claim C9, counterexample: both attention entries have a DEFINED day
percent (0.0 and −5.0), so the claim orders the queue ascending by day
percent, i.e. the −5% entry first.  But `r["dayPct"] or -999` (line 216)
replaces the falsy 0.0 — not only undefined values — by the sentinel, so the
0%-day holding sorts to the front and the queue is not ascending by day
percent. -/
theorem c9_zero_sentinel_counterexample :
    ((cockpitBuild [rowUnderBuy, rowDayDrop] oracleTwoQuotes []).attentionSorted.map
      (fun r => r.dayPct)) = [.fin 0, .fin (mkRat (-5) 1)] ∧
    ¬ List.Pairwise (fun a b : Rec => PFloat.le a.dayPct b.dayPct = true)
      (cockpitBuild [rowUnderBuy, rowDayDrop] oracleTwoQuotes []).attentionSorted := by
  have hmap : ((cockpitBuild [rowUnderBuy, rowDayDrop] oracleTwoQuotes
      []).attentionSorted.map (fun r => r.dayPct)) =
      [.fin 0, .fin (mkRat (-5) 1)] := by decide
  refine ⟨hmap, ?_⟩
  intro hp
  have hmapped : List.Pairwise (fun x y : PFloat => PFloat.le x y = true)
      ((cockpitBuild [rowUnderBuy, rowDayDrop] oracleTwoQuotes
        []).attentionSorted.map (fun r => r.dayPct)) :=
    hp.map (fun r : Rec => r.dayPct) (fun _ _ h => h)
  rw [hmap] at hmapped
  have hle : PFloat.le (.fin 0) (.fin (mkRat (-5) 1)) = true :=
    (List.pairwise_cons.mp hmapped).1 (.fin (mkRat (-5) 1))
      (List.mem_singleton.mpr rfl)
  exact absurd hle (by decide)

/-- Claim C9 (amended): provided every record's day percent is defined
(non-NaN) — with pandas NaN storage the `or` sentinels never fire on
undefined values, so the claimed sentinel substitution only concerns `None`
and falsy values — the aggregation satisfies: the attention queue contains
exactly the records with at least one trigger and is ordered ascending by
the key `dayPct or -999`, a key that equals the day percent except that an
exactly-zero day percent (not only an undefined one) is replaced by the
−999 sentinel and so sorts to the front; the winners (resp. losers) are at
most 5 records drawn from the record set, ordered descending
(resp. ascending) by the key `dayPct or 0` — which equals the day percent,
zero staying zero — and every record left out ranks no better. -/
theorem c9_aggregation (rows : List RawRow) (oracle : String → FetchResult)
    (notes : List (String × String))
    (hnn : ∀ rec ∈ (cockpitBuild rows oracle notes).records,
      rec.dayPct ≠ .nan) :
    (∀ rec, rec ∈ (cockpitBuild rows oracle notes).attentionSorted ↔
      rec ∈ (cockpitBuild rows oracle notes).records ∧ rec.triggers ≠ []) ∧
    List.Pairwise (fun a b : Rec => PFloat.le (attKey a) (attKey b) = true)
      (cockpitBuild rows oracle notes).attentionSorted ∧
    (∀ x : Rec, x.dayPct = .fin 0 → attKey x = .fin (mkRat (-999) 1)) ∧
    (∀ (x : Rec) (q : ℚ), q ≠ 0 → x.dayPct = .fin q → attKey x = .fin q) ∧
    (∀ (x : Rec) (q : ℚ), x.dayPct = .fin q → wlKey x = .fin q) ∧
    (cockpitBuild rows oracle notes).topLosers.length ≤ 5 ∧
    (cockpitBuild rows oracle notes).topWinners.length ≤ 5 ∧
    List.Pairwise (fun a b : Rec => PFloat.le (wlKey a) (wlKey b) = true)
      (cockpitBuild rows oracle notes).topLosers ∧
    List.Pairwise (fun a b : Rec => PFloat.le (wlKey b) (wlKey a) = true)
      (cockpitBuild rows oracle notes).topWinners ∧
    (∀ a ∈ (cockpitBuild rows oracle notes).topLosers,
      a ∈ (cockpitBuild rows oracle notes).records) ∧
    (∀ a ∈ (cockpitBuild rows oracle notes).topWinners,
      a ∈ (cockpitBuild rows oracle notes).records) ∧
    (∀ a ∈ (cockpitBuild rows oracle notes).topLosers,
      ∀ b ∈ (cockpitBuild rows oracle notes).records,
        b ∉ (cockpitBuild rows oracle notes).topLosers →
        PFloat.le (wlKey a) (wlKey b) = true) ∧
    (∀ a ∈ (cockpitBuild rows oracle notes).topWinners,
      ∀ b ∈ (cockpitBuild rows oracle notes).records,
        b ∉ (cockpitBuild rows oracle notes).topWinners →
        PFloat.le (wlKey b) (wlKey a) = true) := by
  have hA : (cockpitBuild rows oracle notes).attention =
      (cockpitBuild rows oracle notes).records.filter
        (fun rec => !rec.triggers.isEmpty) := rfl
  have hAS : (cockpitBuild rows oracle notes).attentionSorted =
      pySortOn attKey (cockpitBuild rows oracle notes).attention := rfl
  have hTL : (cockpitBuild rows oracle notes).topLosers =
      (pySortOn wlKey (cockpitBuild rows oracle notes).records).take 5 := rfl
  have hTW : (cockpitBuild rows oracle notes).topWinners =
      (pySortDescOn wlKey (cockpitBuild rows oracle notes).records).take 5 := rfl
  have hkA : ∀ rec ∈ (cockpitBuild rows oracle notes).attention,
      attKey rec ≠ .nan := by
    intro rec h
    exact pyOrF_ne_nan _ (hnn rec (List.mem_of_mem_filter (hA ▸ h)))
  have hkR : ∀ rec ∈ (cockpitBuild rows oracle notes).records,
      wlKey rec ≠ .nan := fun rec h => pyOrF_ne_nan _ (hnn rec h)
  have hcongrA : pySortOn attKey (cockpitBuild rows oracle notes).attention =
      sortB (fun a b => pfKeyLe (attKey a) (attKey b))
        (cockpitBuild rows oracle notes).attention :=
    sortB_congr _ _ _ (fun a ha b hb =>
      pySortLe_eq_pfKeyLe _ _ (hkA a ha) (hkA b hb))
  have hcongrL : pySortOn wlKey (cockpitBuild rows oracle notes).records =
      sortB (fun a b => pfKeyLe (wlKey a) (wlKey b))
        (cockpitBuild rows oracle notes).records :=
    sortB_congr _ _ _ (fun a ha b hb =>
      pySortLe_eq_pfKeyLe _ _ (hkR a ha) (hkR b hb))
  have hcongrW : pySortDescOn wlKey (cockpitBuild rows oracle notes).records =
      sortB (fun a b => pfKeyLe (wlKey b) (wlKey a))
        (cockpitBuild rows oracle notes).records :=
    sortB_congr _ _ _ (fun a ha b hb =>
      pySortLe_eq_pfKeyLe _ _ (hkR b hb) (hkR a ha))
  have hL := take_of_sortB (fun a b : Rec => pfKeyLe (wlKey a) (wlKey b))
    (cockpitBuild rows oracle notes).records 5
    (fun a b => pfKeyLe_total _ _) (fun a b c => pfKeyLe_trans _ _ _)
  have hW := take_of_sortB (fun a b : Rec => pfKeyLe (wlKey b) (wlKey a))
    (cockpitBuild rows oracle notes).records 5
    (fun a b => (pfKeyLe_total _ _).symm)
    (fun a b c h1 h2 => pfKeyLe_trans _ _ _ h2 h1)
  refine ⟨?_, ?_, ?_, ?_, ?_, ?_, ?_, ?_, ?_, ?_, ?_, ?_, ?_⟩
  · intro rec
    rw [hAS, pySortOn, mem_sortB, hA, List.mem_filter]
    simp
  · rw [hAS, hcongrA]
    have hp := sortB_pairwise (fun a b : Rec => pfKeyLe (attKey a) (attKey b))
      (fun a b => pfKeyLe_total _ _) (fun a b c => pfKeyLe_trans _ _ _)
      (cockpitBuild rows oracle notes).attention
    refine hp.imp_of_mem ?_
    intro a b ha hb h
    have haA := (mem_sortB _ a _).mp ha
    have hbA := (mem_sortB _ b _).mp hb
    rw [← pfKeyLe_eq_le _ _ (hkA a haA) (hkA b hbA)]
    exact h
  · intro x h
    simp [attKey, pyOrF, PFloat.truthy, h]
  · intro x q hq h
    simp [attKey, pyOrF, PFloat.truthy, h, hq]
  · intro x q h
    by_cases hq : q = 0
    · simp [wlKey, pyOrF, PFloat.truthy, h, hq]
    · simp [wlKey, pyOrF, PFloat.truthy, h, hq]
  · rw [hTL, List.length_take]
    exact min_le_left _ _
  · rw [hTW, List.length_take]
    exact min_le_left _ _
  · rw [hTL, hcongrL]
    refine hL.1.imp_of_mem ?_
    intro a b ha hb h
    have haR := hL.2.1 a (hcongrL ▸ ha)
    have hbR := hL.2.1 b (hcongrL ▸ hb)
    rw [← pfKeyLe_eq_le _ _ (hkR a haR) (hkR b hbR)]
    exact h
  · rw [hTW, hcongrW]
    refine hW.1.imp_of_mem ?_
    intro a b ha hb h
    have haR := hW.2.1 a (hcongrW ▸ ha)
    have hbR := hW.2.1 b (hcongrW ▸ hb)
    rw [← pfKeyLe_eq_le _ _ (hkR b hbR) (hkR a haR)]
    exact h
  · intro a ha
    exact hL.2.1 a (by rw [hTL, hcongrL] at ha; exact ha)
  · intro a ha
    exact hW.2.1 a (by rw [hTW, hcongrW] at ha; exact ha)
  · intro a ha b hb hbn
    have h := hL.2.2 a (by rw [hTL, hcongrL] at ha; exact ha) b hb
      (by rw [hTL, hcongrL] at hbn; exact hbn)
    rw [← pfKeyLe_eq_le _ _ (hkR a (hL.2.1 a (by rw [hTL, hcongrL] at ha; exact ha)))
      (hkR b hb)]
    exact h
  · intro a ha b hb hbn
    have h := hW.2.2 a (by rw [hTW, hcongrW] at ha; exact ha) b hb
      (by rw [hTW, hcongrW] at hbn; exact hbn)
    rw [← pfKeyLe_eq_le _ _ (hkR b hb)
      (hkR a (hW.2.1 a (by rw [hTW, hcongrW] at ha; exact ha)))]
    exact h

/-- Witness for `c9_aggregation`: on the two-quote run (day percents 0 and
−5, both defined) the losers list has at most five entries. -/
theorem c9_aggregation_witness :
    (cockpitBuild [rowUnderBuy, rowDayDrop] oracleTwoQuotes
      []).topLosers.length ≤ 5 :=
  (c9_aggregation [rowUnderBuy, rowDayDrop] oracleTwoQuotes []
    (by decide)).2.2.2.2.2.1

end Portfolio
